import Mathlib

/-!
Retrying a command with constant, linear or quadratic backoff:
a shallow embedding of `main.go` (package `main` of `thomasheller/try`).

* Go's `int`, `BackoffStrategy` and `time.Duration` are 64-bit two's-complement
  integers.  They are embedded as `Int`, and every product computed by `Backoff`
  is reduced with `wrap64`, so that overflow in the delay formulas is visible.
* The attempt counter of the retry loop is incremented once per launch and is
  kept as a natural number (it is handed to `Backoff` as an `Int`).
* The operating system is a script of `ChildOutcome`s, one per launch, in the
  order in which the launches happen.  The loop is a total function of that
  script: when the script is used up and the loop has not ended, the run is
  reported as `Status.running` (a finite part of a longer run).
* Everything the program does that the outside can observe is recorded as a
  list of `Event`s, in program order.  Wall-clock readings (`firstStart`,
  `lastStart`, the wording of relative times) are not part of the embedding;
  the example schedule keeps `pauseTotal` as an offset, in nanoseconds, from
  the instant `ShowExample` reads the clock.
-/

namespace Try

/-! ## Machine integers and durations -/

/-- Reduce an integer to the signed 64-bit range `[-2^63, 2^63)`, as Go's
`int`/`int64` arithmetic does on overflow. -/
def wrap64 (x : Int) : Int := (x + 2 ^ 63) % 2 ^ 64 - 2 ^ 63

/-- Go `time.Duration`: a signed 64-bit count of nanoseconds. -/
abbrev Duration := Int

/-- Go `time.Second`, in nanoseconds. -/
def Second : Duration := 1000000000

/-! ## Backoff strategies (`main.go` lines 15-21) -/

/-- Go `type BackoffStrategy int`. -/
abbrev BackoffStrategy := Int

/-- First `iota` constant. -/
def ConstantBackoff : BackoffStrategy := 0

/-- Second `iota` constant. -/
def LinearBackoff : BackoffStrategy := 1

/-- Third `iota` constant. -/
def ExponentialBackoff : BackoffStrategy := 2

/-- Go `Backoff` (`main.go` lines 120-131).  `Except.error` is the `panic`.
Each product is an `int` or `time.Duration` product and wraps. -/
def Backoff (strategy : BackoffStrategy) (attempt : Int) : Except String Duration :=
  if strategy = ConstantBackoff then
    .ok (wrap64 (2 * Second))
  else if strategy = LinearBackoff then
    .ok (wrap64 (wrap64 (2 * attempt) * Second))
  else if strategy = ExponentialBackoff then
    .ok (wrap64 (wrap64 (wrap64 (2 * attempt) * attempt) * Second))
  else
    .error "Unsupported backoff strategy"

/-! ## Observable events and runs -/

/-- One line of the example schedule printed by `ShowExample`: the values of
`i`, `pause` and `pauseTotal` at the `Printf` of iteration `i`. -/
structure ExampleRow where
  index : Int
  pause : Duration
  pauseTotal : Duration
  deriving DecidableEq, Repr

/-- What the operating system answers to one launch of the child. -/
inductive ChildOutcome
  | startError
  | exitFailure
  | exitSuccess
  deriving DecidableEq, Repr

/-- Observable actions of the program, in program order. -/
inductive Event
  | usage
  | exampleHeader (retries : Int)
  | exampleRow (row : ExampleRow)
  | exampleFooter
  | launch (attempt : Nat) (name : String) (args : List String)
  | fatal
  | childFailed
  | childSucceeded
  | backoff (strategy : BackoffStrategy) (attempt : Int)
  | retryMessage (attempts : Nat) (pause : Duration)
  | sleep (pause : Duration)
  | successMessage (attempts : Nat)
  deriving DecidableEq, Repr

/-- How far a run has got. -/
inductive Status
  | running
  | exited (code : Nat)
  | panicked (message : String)
  deriving DecidableEq, Repr

/-- The attempt counter, the events so far and the status of a run. -/
structure Run where
  attempts : Nat
  trace : List Event
  status : Status
  deriving DecidableEq, Repr

/-- Is the event a call of `cmd.Start`. -/
def Event.isLaunch : Event → Bool
  | .launch _ _ _ => true
  | _ => false

/-- Is the event a call of `Backoff`. -/
def Event.isBackoff : Event → Bool
  | .backoff _ _ => true
  | _ => false

/-- Is the event a call of `time.Sleep`. -/
def Event.isSleep : Event → Bool
  | .sleep _ => true
  | _ => false

/-- Is the event the final success message. -/
def Event.isSuccessMessage : Event → Bool
  | .successMessage _ => true
  | _ => false

/-- The durations slept, in order. -/
def pauses (trace : List Event) : List Duration :=
  trace.filterMap fun e =>
    match e with
    | .sleep d => some d
    | _ => none

/-- The rows printed, in order. -/
def rows (trace : List Event) : List ExampleRow :=
  trace.filterMap fun e =>
    match e with
    | .exampleRow r => some r
    | _ => none

/-! ## `ShowExample` (`main.go` lines 103-118) -/

/-- Loop state of `ShowExample`: what has been printed, `pause`, `pauseTotal`,
and the panic message once `Backoff` has panicked. -/
structure ExampleState where
  printed : List Event
  pause : Duration
  pauseTotal : Duration
  failure : Option String
  deriving DecidableEq, Repr

/-- One iteration of the `for` loop of `ShowExample`, for loop variable `i`. -/
def exampleStep (strategy : BackoffStrategy) (st : ExampleState) (i : Nat) : ExampleState :=
  match st.failure with
  | some _ => st
  | none =>
    let printed := st.printed ++ [Event.exampleRow ⟨i, st.pause, st.pauseTotal⟩]
    match Backoff strategy i with
    | .error msg => { st with printed := printed, failure := some msg }
    | .ok pause =>
      { printed := printed, pause := pause, pauseTotal := st.pauseTotal + pause, failure := none }

/-- Go `ShowExample`: header, the loop for `i = 1, ..., retries`, footer.
Returns what was printed and, when `Backoff` panicked, the panic message. -/
def ShowExample (strategy : BackoffStrategy) : List Event × Option String :=
  let retries : Nat := 20
  let st := (List.range' 1 retries).foldl (exampleStep strategy)
    { printed := [Event.exampleHeader retries], pause := 0, pauseTotal := 0, failure := none }
  match st.failure with
  | some msg => (st.printed, some msg)
  | none => (st.printed ++ [Event.exampleFooter], none)

/-! ## `main` (`main.go` lines 23-101) -/

/-- The `switch os.Args[1]` of `main` (lines 30-46): the strategy and `shiftArgs`. -/
def selectStrategy (arg : String) : BackoffStrategy × Bool :=
  if arg = "constant" then (ConstantBackoff, true)
  else if arg = "linear" then (LinearBackoff, true)
  else if arg = "exponential" then (ExponentialBackoff, true)
  else (ConstantBackoff, false)

/-- The `command` slice of `main` (lines 53-59). -/
def resolveCommand (shiftArgs : Bool) (osArgs : List String) : List String :=
  if shiftArgs then osArgs.drop 2 else osArgs.drop 1

/-- The `for` loop of `main` (lines 66-95) and the success message after it
(lines 97-100), from attempt counter `attempts`, against a script of child
outcomes.  `command[0]` on an empty slice is a run-time panic. -/
def retryLoop (strategy : BackoffStrategy) (command : List String) :
    Nat → List ChildOutcome → Run
  | attempts, [] =>
    match command with
    | [] => { attempts := attempts + 1, trace := [], status := .panicked "index out of range" }
    | _ :: _ => { attempts := attempts, trace := [], status := .running }
  | attempts, outcome :: later =>
    match command with
    | [] => { attempts := attempts + 1, trace := [], status := .panicked "index out of range" }
    | name :: args =>
      let attempts := attempts + 1
      match outcome with
      | .startError =>
        { attempts := attempts, trace := [.launch attempts name args, .fatal], status := .exited 1 }
      | .exitSuccess =>
        { attempts := attempts
          trace := [.launch attempts name args, .childSucceeded, .successMessage attempts]
          status := .exited 0 }
      | .exitFailure =>
        match Backoff strategy attempts with
        | .error msg =>
          { attempts := attempts
            trace := [.launch attempts name args, .childFailed, .backoff strategy attempts]
            status := .panicked msg }
        | .ok pause =>
          let next := retryLoop strategy command attempts later
          { attempts := next.attempts
            trace := [.launch attempts name args, .childFailed, .backoff strategy attempts,
              .retryMessage attempts pause, .sleep pause] ++ next.trace
            status := next.status }

/-- Go `main`, on `os.Args` and a script of child outcomes. -/
def main (osArgs : List String) (outcomes : List ChildOutcome) : Run :=
  match osArgs with
  | [] => { attempts := 0, trace := [.usage], status := .exited 1 }
  | [_] => { attempts := 0, trace := [.usage], status := .exited 1 }
  | _ :: arg :: _ =>
    let choice := selectStrategy arg
    if choice.2 && osArgs.length == 2 then
      let shown := ShowExample choice.1
      match shown.2 with
      | some msg => { attempts := 0, trace := shown.1, status := .panicked msg }
      | none => { attempts := 0, trace := shown.1, status := .exited 1 }
    else
      retryLoop choice.1 (resolveCommand choice.2 osArgs) 0 outcomes

/-! ## Vocabulary of the statements -/

/-- The delay `Backoff` returns for an attempt, `0` when it panics. -/
def pauseAfter (strategy : BackoffStrategy) (attempt : Nat) : Duration :=
  match Backoff strategy attempt with
  | .ok pause => pause
  | .error _ => 0

/-- The events of one loop iteration whose child started and exited with
failure: launch, failed wait, `Backoff` call, progress message, sleep. -/
def failedRound (strategy : BackoffStrategy) (name : String) (args : List String)
    (attempt : Nat) : List Event :=
  [.launch attempt name args, .childFailed, .backoff strategy attempt,
    .retryMessage attempt (pauseAfter strategy attempt), .sleep (pauseAfter strategy attempt)]

/-- The events of `count` consecutive failed iterations, the first of which is
attempt `done + 1`. -/
def failedRounds (strategy : BackoffStrategy) (name : String) (args : List String)
    (done count : Nat) : List Event :=
  (List.range' (done + 1) count).flatMap (failedRound strategy name args)

/-- The retry loop as `main` enters it: attempt counter 0, command `name :: args`. -/
def enterLoop (strategy : BackoffStrategy) (name : String) (args : List String)
    (outcomes : List ChildOutcome) : Run :=
  retryLoop strategy (name :: args) 0 outcomes

/-- The three strategy values `main` can select. -/
def Recognised (strategy : BackoffStrategy) : Prop :=
  strategy = ConstantBackoff ∨ strategy = LinearBackoff ∨ strategy = ExponentialBackoff

instance (strategy : BackoffStrategy) : Decidable (Recognised strategy) := by
  unfold Recognised
  infer_instance

/-! ## Arithmetic of `wrap64` and `Backoff` -/

theorem wrap64_eq_self (x : Int) (lo : -9223372036854775808 ≤ x) (hi : x < 9223372036854775808) :
    wrap64 x = x := by
  unfold wrap64
  omega

theorem wrap64_bounds (x : Int) :
    -9223372036854775808 ≤ wrap64 x ∧ wrap64 x < 9223372036854775808 := by
  unfold wrap64
  omega

theorem Backoff_constant_value (n : Int) : Backoff ConstantBackoff n = .ok (2 * Second) := by
  simp [Backoff, wrap64, Second]

theorem Backoff_linear_value (n : Int) :
    Backoff LinearBackoff n = .ok (wrap64 (wrap64 (2 * n) * Second)) := by
  simp [Backoff, LinearBackoff, ConstantBackoff]

theorem Backoff_exponential_value (n : Int) :
    Backoff ExponentialBackoff n = .ok (wrap64 (wrap64 (wrap64 (2 * n) * n) * Second)) := by
  simp [Backoff, LinearBackoff, ConstantBackoff, ExponentialBackoff]

theorem linear_exact (n : Int) (h1 : 1 ≤ n) (h2 : n ≤ 4611686018) :
    wrap64 (wrap64 (2 * n) * Second) = 2 * n * Second := by
  rw [wrap64_eq_self (2 * n) (by omega) (by omega)]
  apply wrap64_eq_self <;> simp only [Second] <;> omega

theorem linear_overflow (n : Int) (h : 4611686019 ≤ n) :
    9223372036854775807 < 2 * n * Second := by
  simp only [Second]
  omega

theorem exponential_exact (n : Int) (h1 : 1 ≤ n) (h2 : n ≤ 67909) :
    wrap64 (wrap64 (wrap64 (2 * n) * n) * Second) = 2 * n * n * Second := by
  have hsq : n * n ≤ 67909 * 67909 := mul_le_mul h2 h2 (by omega) (by omega)
  have hpos : 1 ≤ n * n := by nlinarith
  rw [wrap64_eq_self (2 * n) (by omega) (by omega)]
  rw [wrap64_eq_self (2 * n * n) (by rw [mul_assoc]; omega) (by rw [mul_assoc]; omega)]
  apply wrap64_eq_self <;> simp only [Second] <;> rw [mul_assoc 2 n n] <;> omega

theorem exponential_overflow (n : Int) (h : 67910 ≤ n) :
    9223372036854775807 < 2 * n * n * Second := by
  have hsq : 67910 * 67910 ≤ n * n := mul_le_mul h h (by omega) (by omega)
  simp only [Second]
  rw [mul_assoc 2 n n]
  omega

/-! ## The delay formulas -/

/-- C1, as stated, fails: at attempt 67910 the quadratic delay is not
`2 * 67910 * 67910` seconds, and at attempt 4611686019 the linear delay is not
`2 * 4611686019` seconds; both 64-bit products have wrapped. -/
theorem Backoff_seconds_fails :
    Backoff ExponentialBackoff 67910 ≠ .ok (2 * 67910 * 67910 * Second) ∧
    Backoff LinearBackoff 4611686019 ≠ .ok (2 * 4611686019 * Second) := by
  constructor <;>
    simp [Backoff, wrap64, ExponentialBackoff, ConstantBackoff, LinearBackoff, Second]

/-- C1, amended: for every attempt `n ≥ 1` the constant delay is exactly 2
seconds; the linear delay is exactly `2 * n` seconds precisely when
`n ≤ 4611686018`; the quadratic delay is exactly `2 * n * n` seconds precisely
when `n ≤ 67909`. -/
theorem Backoff_seconds (n : Int) (h : 1 ≤ n) :
    Backoff ConstantBackoff n = .ok (2 * Second) ∧
    (Backoff LinearBackoff n = .ok (2 * n * Second) ↔ n ≤ 4611686018) ∧
    (Backoff ExponentialBackoff n = .ok (2 * n * n * Second) ↔ n ≤ 67909) := by
  refine ⟨Backoff_constant_value n, ?_, ?_⟩
  · rw [Backoff_linear_value]
    constructor
    · intro heq
      by_contra hgt
      have hover := linear_overflow n (by omega)
      have hb := (wrap64_bounds (wrap64 (2 * n) * Second)).2
      rw [Except.ok.injEq] at heq
      rw [heq] at hb
      omega
    · intro hle
      rw [linear_exact n h hle]
  · rw [Backoff_exponential_value]
    constructor
    · intro heq
      by_contra hgt
      have hover := exponential_overflow n (by omega)
      have hb := (wrap64_bounds (wrap64 (wrap64 (2 * n) * n) * Second)).2
      rw [Except.ok.injEq] at heq
      rw [heq] at hb
      omega
    · intro hle
      rw [exponential_exact n h hle]

/-- Witness for C1 at attempt 3: delays of 2, 6 and 18 seconds. -/
theorem Backoff_seconds_witness :
    (1 : Int) ≤ 3 ∧
    Backoff ConstantBackoff 3 = .ok (2 * Second) ∧
    (Backoff LinearBackoff 3 = .ok (2 * 3 * Second) ↔ (3 : Int) ≤ 4611686018) ∧
    (Backoff ExponentialBackoff 3 = .ok (2 * 3 * 3 * Second) ↔ (3 : Int) ≤ 67909) :=
  ⟨by decide, Backoff_seconds 3 (by decide)⟩

/-! ## Monotonicity of the delay -/

/-- C2, as stated, fails: the quadratic delay of attempt 67910 is negative and
so not larger than that of attempt 67909, and the linear delay of attempt
4611686019 is negative and not larger than that of attempt 4611686018. -/
theorem Backoff_increasing_fails :
    Backoff ExponentialBackoff 67909 = .ok 9223264562000000000 ∧
    Backoff ExponentialBackoff (67909 + 1) = .ok (-9223207873709551616) ∧
    ¬ ((9223264562000000000 : Int) < -9223207873709551616) ∧
    Backoff LinearBackoff 4611686018 = .ok 9223372036000000000 ∧
    Backoff LinearBackoff (4611686018 + 1) = .ok (-9223372035709551616) ∧
    ¬ ((9223372036000000000 : Int) < -9223372035709551616) := by
  refine ⟨?_, ?_, by decide, ?_, ?_, by decide⟩ <;>
    simp [Backoff, wrap64, ExponentialBackoff, ConstantBackoff, LinearBackoff, Second]

/-- C2, amended: for every attempt `n ≥ 1` the constant delay of attempt
`n + 1` equals that of attempt `n`; the linear delay of attempt `n + 1` is
larger than that of attempt `n` whenever `n + 1 ≤ 4611686018`; the quadratic
delay of attempt `n + 1` is larger than that of attempt `n` whenever
`n + 1 ≤ 67909`. -/
theorem Backoff_increasing (n : Int) (h : 1 ≤ n) :
    Backoff ConstantBackoff (n + 1) = Backoff ConstantBackoff n ∧
    (n + 1 ≤ 4611686018 → ∃ d d' : Duration, Backoff LinearBackoff n = .ok d ∧
      Backoff LinearBackoff (n + 1) = .ok d' ∧ d < d') ∧
    (n + 1 ≤ 67909 → ∃ d d' : Duration, Backoff ExponentialBackoff n = .ok d ∧
      Backoff ExponentialBackoff (n + 1) = .ok d' ∧ d < d') := by
  refine ⟨?_, ?_, ?_⟩
  · rw [Backoff_constant_value, Backoff_constant_value]
  · intro hle
    refine ⟨2 * n * Second, 2 * (n + 1) * Second, ?_, ?_, ?_⟩
    · rw [Backoff_linear_value, linear_exact n h (by omega)]
    · rw [Backoff_linear_value, linear_exact (n + 1) (by omega) hle]
    · show (2 * n * 1000000000 : Int) < 2 * (n + 1) * 1000000000
      omega
  · intro hle
    refine ⟨2 * n * n * Second, 2 * (n + 1) * (n + 1) * Second, ?_, ?_, ?_⟩
    · rw [Backoff_exponential_value, exponential_exact n h (by omega)]
    · rw [Backoff_exponential_value, exponential_exact (n + 1) (by omega) hle]
    · show (2 * n * n * 1000000000 : Int) < 2 * (n + 1) * (n + 1) * 1000000000
      nlinarith

/-- Witness for C2 at attempt 1: 2 s = 2 s, 2 s < 4 s, 2 s < 8 s. -/
theorem Backoff_increasing_witness :
    (1 : Int) ≤ 1 ∧
    Backoff ConstantBackoff (1 + 1) = Backoff ConstantBackoff 1 ∧
    ((1 : Int) + 1 ≤ 4611686018 → ∃ d d' : Duration, Backoff LinearBackoff 1 = .ok d ∧
      Backoff LinearBackoff (1 + 1) = .ok d' ∧ d < d') ∧
    ((1 : Int) + 1 ≤ 67909 → ∃ d d' : Duration, Backoff ExponentialBackoff 1 = .ok d ∧
      Backoff ExponentialBackoff (1 + 1) = .ok d' ∧ d < d') :=
  ⟨by decide, Backoff_increasing 1 (by decide)⟩

/-! ## Unsupported strategy values -/

/-- C8: `Backoff` returns a delay exactly for the strategy values 0, 1 and 2;
for every other value, whatever the attempt number, it panics with
"Unsupported backoff strategy" and returns no delay. -/
theorem Backoff_panics_iff_unsupported (strategy : BackoffStrategy) (attempt : Int) :
    ConstantBackoff = 0 ∧ LinearBackoff = 1 ∧ ExponentialBackoff = 2 ∧
    ((∃ d : Duration, Backoff strategy attempt = .ok d) ↔
      (strategy = ConstantBackoff ∨ strategy = LinearBackoff ∨
        strategy = ExponentialBackoff)) ∧
    (¬ (strategy = ConstantBackoff ∨ strategy = LinearBackoff ∨
        strategy = ExponentialBackoff) →
      Backoff strategy attempt = .error "Unsupported backoff strategy" ∧
      ∀ d : Duration, Backoff strategy attempt ≠ .ok d) := by
  refine ⟨rfl, rfl, rfl, ?_, ?_⟩
  · constructor
    · rintro ⟨d, hd⟩
      by_contra hno
      push_neg at hno
      simp [Backoff, hno.1, hno.2.1, hno.2.2] at hd
    · rintro (hs | hs | hs)
      · exact ⟨_, hs ▸ Backoff_constant_value attempt⟩
      · exact ⟨_, hs ▸ Backoff_linear_value attempt⟩
      · exact ⟨_, hs ▸ Backoff_exponential_value attempt⟩
  · intro hno
    push_neg at hno
    simp [Backoff, hno.1, hno.2.1, hno.2.2]

/-! ## The 64-bit range of the quadratic delay -/

/-- C10: with 64-bit `int` and `time.Duration`, for every `n` with
`1 ≤ n ≤ 67909` the quadratic delay is exactly `2 * n * n * 10^9` nanoseconds,
no product wraps, and the delay is strictly positive; `2 * n * n * 10^9`
exceeds `2^63 - 1` exactly from `n = 67910` on, and the delay of attempt 67910
is negative. -/
theorem Backoff_exponential_range (n : Int) (h : 1 ≤ n) :
    (n ≤ 67909 →
      Backoff ExponentialBackoff n = .ok (2 * n * n * 1000000000) ∧
      wrap64 (2 * n) = 2 * n ∧ wrap64 (2 * n * n) = 2 * n * n ∧
      wrap64 (2 * n * n * 1000000000) = 2 * n * n * 1000000000 ∧
      0 < 2 * n * n * 1000000000 ∧ 2 * n * n * 1000000000 ≤ 2 ^ 63 - 1) ∧
    (2 ^ 63 - 1 < 2 * n * n * 1000000000 ↔ 67910 ≤ n) ∧
    (∃ d : Duration, Backoff ExponentialBackoff 67910 = .ok d ∧ d < 0) := by
  refine ⟨?_, ?_, ?_⟩
  · intro hle
    have hsq : n * n ≤ 67909 * 67909 := mul_le_mul hle hle (by omega) (by omega)
    have hpos : 1 ≤ n * n := by nlinarith
    have hval := exponential_exact n h hle
    simp only [Second] at hval
    refine ⟨?_, ?_, ?_, ?_, ?_, ?_⟩
    · rw [Backoff_exponential_value]
      simp only [Second]
      rw [hval]
    · exact wrap64_eq_self _ (by omega) (by omega)
    · exact wrap64_eq_self _ (by rw [mul_assoc]; omega) (by rw [mul_assoc]; omega)
    · exact wrap64_eq_self _ (by rw [mul_assoc 2 n n]; omega) (by rw [mul_assoc 2 n n]; omega)
    · rw [mul_assoc 2 n n]
      omega
    · rw [mul_assoc 2 n n]
      omega
  · constructor
    · intro hbig
      by_contra hlt
      have hsq : n * n ≤ 67909 * 67909 :=
        mul_le_mul (by omega) (by omega) (by omega) (by omega)
      rw [mul_assoc 2 n n] at hbig
      omega
    · intro hge
      have hover := exponential_overflow n hge
      simp only [Second] at hover
      omega
  · refine ⟨-9223207873709551616, ?_, by decide⟩
    simp [Backoff, wrap64, ExponentialBackoff, ConstantBackoff, LinearBackoff, Second]

/-- Witness for C10 at the last attempt number that does not wrap. -/
theorem Backoff_exponential_range_witness :
    (1 : Int) ≤ 67909 ∧
    Backoff ExponentialBackoff 67909 = .ok (2 * 67909 * 67909 * 1000000000) ∧
    (0 : Int) < 2 * 67909 * 67909 * 1000000000 :=
  ⟨by decide,
    ((Backoff_exponential_range 67909 (by decide)).1 (by decide)).1,
    ((Backoff_exponential_range 67909 (by decide)).1 (by decide)).2.2.2.2.1⟩

/-! ## The retry loop on a script that starts with failures -/

theorem Backoff_recognised (s : BackoffStrategy) (hs : Recognised s) (n : Nat) :
    Backoff s n = .ok (pauseAfter s n) := by
  rcases hs with hs | hs | hs <;> subst hs
  · simp [pauseAfter, Backoff_constant_value]
  · simp [pauseAfter, Backoff_linear_value]
  · simp [pauseAfter, Backoff_exponential_value]

theorem failedRounds_zero (s : BackoffStrategy) (name : String) (args : List String) (a : Nat) :
    failedRounds s name args a 0 = [] := rfl

theorem failedRounds_succ (s : BackoffStrategy) (name : String) (args : List String)
    (a k : Nat) :
    failedRounds s name args a (k + 1) =
      failedRound s name args (a + 1) ++ failedRounds s name args (a + 1) k := rfl

theorem retryLoop_failure (s : BackoffStrategy) (hs : Recognised s) (name : String)
    (args : List String) (a : Nat) (later : List ChildOutcome) :
    retryLoop s (name :: args) a (.exitFailure :: later) =
      { attempts := (retryLoop s (name :: args) (a + 1) later).attempts
        trace := failedRound s name args (a + 1) ++
          (retryLoop s (name :: args) (a + 1) later).trace
        status := (retryLoop s (name :: args) (a + 1) later).status } := by
  rw [retryLoop]
  simp only [Backoff_recognised s hs (a + 1)]
  rfl

theorem retryLoop_failures (s : BackoffStrategy) (hs : Recognised s) (name : String)
    (args : List String) (k : Nat) :
    ∀ (a : Nat) (rest : List ChildOutcome),
      retryLoop s (name :: args) a (List.replicate k .exitFailure ++ rest) =
        { attempts := (retryLoop s (name :: args) (a + k) rest).attempts
          trace := failedRounds s name args a k ++
            (retryLoop s (name :: args) (a + k) rest).trace
          status := (retryLoop s (name :: args) (a + k) rest).status } := by
  induction k with
  | zero => intro a rest; simp [failedRounds_zero]
  | succ k ih =>
    intro a rest
    rw [List.replicate_succ, List.cons_append, retryLoop_failure s hs, ih (a + 1) rest,
      failedRounds_succ]
    simp [Nat.add_assoc, Nat.add_comm 1 k]

theorem countP_isLaunch_failedRounds (s : BackoffStrategy) (name : String) (args : List String)
    (k : Nat) : ∀ a : Nat, (failedRounds s name args a k).countP Event.isLaunch = k := by
  induction k with
  | zero => intro a; rfl
  | succ k ih =>
    intro a
    rw [failedRounds_succ, List.countP_append, ih (a + 1)]
    simp [failedRound, Event.isLaunch, Nat.add_comm]

theorem pauses_failedRounds (s : BackoffStrategy) (name : String) (args : List String)
    (k : Nat) : ∀ a : Nat,
      pauses (failedRounds s name args a k) = (List.range' (a + 1) k).map (pauseAfter s) := by
  induction k with
  | zero => intro a; rfl
  | succ k ih =>
    intro a
    rw [failedRounds_succ, pauses, List.filterMap_append, ← pauses, ← pauses, ih (a + 1)]
    simp [failedRound, pauses, List.range'_succ]

theorem countP_isBackoff_failedRounds (s : BackoffStrategy) (name : String) (args : List String)
    (k : Nat) : ∀ a : Nat, (failedRounds s name args a k).countP Event.isBackoff = k := by
  induction k with
  | zero => intro a; rfl
  | succ k ih =>
    intro a
    rw [failedRounds_succ, List.countP_append, ih (a + 1)]
    simp [failedRound, Event.isBackoff, Nat.add_comm]

theorem countP_isSleep_failedRounds (s : BackoffStrategy) (name : String) (args : List String)
    (k : Nat) : ∀ a : Nat, (failedRounds s name args a k).countP Event.isSleep = k := by
  induction k with
  | zero => intro a; rfl
  | succ k ih =>
    intro a
    rw [failedRounds_succ, List.countP_append, ih (a + 1)]
    simp [failedRound, Event.isSleep, Nat.add_comm]

theorem countP_isSuccessMessage_failedRounds (s : BackoffStrategy) (name : String)
    (args : List String) (k : Nat) :
    ∀ a : Nat, (failedRounds s name args a k).countP Event.isSuccessMessage = 0 := by
  induction k with
  | zero => intro a; rfl
  | succ k ih =>
    intro a
    rw [failedRounds_succ, List.countP_append, ih (a + 1)]
    simp [failedRound, Event.isSuccessMessage]

theorem head_failedRounds_append (s : BackoffStrategy) (name : String) (args : List String)
    (k : Nat) (tail : List Event) :
    (failedRounds s name args 0 k ++ .launch (k + 1) name args :: tail).head? =
      some (.launch 1 name args) := by
  cases k with
  | zero => rfl
  | succ k => rfl

/-! ## Failures followed by a success -/

/-- C3: for every recognised strategy and every `k`, when the first `k`
children exit with failure and child `k + 1` exits successfully, the loop ends
with exit status 0 and attempt counter `k + 1`; the trace is `k` failed rounds
(launch, failed wait, `Backoff` call, message, sleep) followed by the last
launch, its successful wait and the success message, so there are `k + 1`
launches, `k` `Backoff` calls and `k` sleeps, the first event is the first
launch and the last event is the success message. -/
theorem retry_until_success (s : BackoffStrategy) (hs : Recognised s) (name : String)
    (args : List String) (k : Nat) (rest : List ChildOutcome) :
    (enterLoop s name args (List.replicate k .exitFailure ++ .exitSuccess :: rest)).status
      = .exited 0 ∧
    (enterLoop s name args (List.replicate k .exitFailure ++ .exitSuccess :: rest)).attempts
      = k + 1 ∧
    (enterLoop s name args (List.replicate k .exitFailure ++ .exitSuccess :: rest)).trace
      = failedRounds s name args 0 k ++
          [.launch (k + 1) name args, .childSucceeded, .successMessage (k + 1)] ∧
    (enterLoop s name args (List.replicate k .exitFailure ++ .exitSuccess :: rest)).trace.countP
      Event.isLaunch = k + 1 ∧
    (enterLoop s name args (List.replicate k .exitFailure ++ .exitSuccess :: rest)).trace.countP
      Event.isBackoff = k ∧
    (enterLoop s name args (List.replicate k .exitFailure ++ .exitSuccess :: rest)).trace.countP
      Event.isSleep = k ∧
    (enterLoop s name args (List.replicate k .exitFailure ++ .exitSuccess :: rest)).trace.head?
      = some (.launch 1 name args) ∧
    (enterLoop s name args (List.replicate k .exitFailure ++ .exitSuccess :: rest)).trace.getLast?
      = some (.successMessage (k + 1)) := by
  have hrun : enterLoop s name args (List.replicate k .exitFailure ++ .exitSuccess :: rest) =
      { attempts := k + 1
        trace := failedRounds s name args 0 k ++
          [.launch (k + 1) name args, .childSucceeded, .successMessage (k + 1)]
        status := .exited 0 } := by
    rw [enterLoop, retryLoop_failures s hs, retryLoop]
    simp
  rw [hrun]
  refine ⟨rfl, rfl, rfl, ?_, ?_, ?_, ?_, ?_⟩
  · simp [List.countP_append, countP_isLaunch_failedRounds, Event.isLaunch]
  · simp [List.countP_append, countP_isBackoff_failedRounds, Event.isBackoff]
  · simp [List.countP_append, countP_isSleep_failedRounds, Event.isSleep]
  · exact head_failedRounds_append s name args k _
  · simp

/-- Witness for C3 with the constant strategy and `k = 0`: one launch, no
`Backoff` call, no sleep, exit status 0. -/
theorem retry_until_success_witness :
    Recognised ConstantBackoff ∧
    (enterLoop ConstantBackoff "true" [] [.exitSuccess]).status = .exited 0 ∧
    (enterLoop ConstantBackoff "true" [] [.exitSuccess]).attempts = 1 ∧
    (enterLoop ConstantBackoff "true" [] [.exitSuccess]).trace.countP Event.isLaunch = 1 ∧
    (enterLoop ConstantBackoff "true" [] [.exitSuccess]).trace.countP Event.isBackoff = 0 ∧
    (enterLoop ConstantBackoff "true" [] [.exitSuccess]).trace.countP Event.isSleep = 0 :=
  have h := retry_until_success ConstantBackoff (Or.inl rfl) "true" [] 0 []
  ⟨Or.inl rfl, h.1, h.2.1, h.2.2.2.1, h.2.2.2.2.1, h.2.2.2.2.2.1⟩

/-! ## Failures followed by a child that cannot be started -/

/-- C7: for every recognised strategy and every `k`, when the first `k`
children exit with failure and child `k + 1` cannot be started, the run ends
with exit status 1; the trace is `k` failed rounds followed by the launch
attempt and the fatal log, so there are `k` `Backoff` calls, `k` sleeps,
`k + 1` launch attempts, no success message, and nothing after the fatal log. -/
theorem retry_until_start_failure (s : BackoffStrategy) (hs : Recognised s) (name : String)
    (args : List String) (k : Nat) (rest : List ChildOutcome) :
    (enterLoop s name args (List.replicate k .exitFailure ++ .startError :: rest)).status
      = .exited 1 ∧
    (enterLoop s name args (List.replicate k .exitFailure ++ .startError :: rest)).trace
      = failedRounds s name args 0 k ++ [.launch (k + 1) name args, .fatal] ∧
    (enterLoop s name args (List.replicate k .exitFailure ++ .startError :: rest)).trace.countP
      Event.isBackoff = k ∧
    (enterLoop s name args (List.replicate k .exitFailure ++ .startError :: rest)).trace.countP
      Event.isSleep = k ∧
    (enterLoop s name args (List.replicate k .exitFailure ++ .startError :: rest)).trace.countP
      Event.isLaunch = k + 1 ∧
    (enterLoop s name args (List.replicate k .exitFailure ++ .startError :: rest)).trace.countP
      Event.isSuccessMessage = 0 ∧
    (enterLoop s name args (List.replicate k .exitFailure ++ .startError :: rest)).trace.getLast?
      = some .fatal := by
  have hrun : enterLoop s name args (List.replicate k .exitFailure ++ .startError :: rest) =
      { attempts := k + 1
        trace := failedRounds s name args 0 k ++ [.launch (k + 1) name args, .fatal]
        status := .exited 1 } := by
    rw [enterLoop, retryLoop_failures s hs, retryLoop]
    simp
  rw [hrun]
  refine ⟨rfl, rfl, ?_, ?_, ?_, ?_, ?_⟩
  · simp [List.countP_append, countP_isBackoff_failedRounds, Event.isBackoff]
  · simp [List.countP_append, countP_isSleep_failedRounds, Event.isSleep]
  · simp [List.countP_append, countP_isLaunch_failedRounds, Event.isLaunch]
  · simp [List.countP_append, countP_isSuccessMessage_failedRounds, Event.isSuccessMessage]
  · simp

/-- Witness for C7 with the linear strategy and `k = 2`: the trace, written out. -/
theorem retry_until_start_failure_witness :
    Recognised LinearBackoff ∧
    (enterLoop LinearBackoff "job" ["-v"] [.exitFailure, .exitFailure, .startError]).status
      = .exited 1 ∧
    (enterLoop LinearBackoff "job" ["-v"] [.exitFailure, .exitFailure, .startError]).trace
      = [.launch 1 "job" ["-v"], .childFailed, .backoff LinearBackoff 1,
          .retryMessage 1 (pauseAfter LinearBackoff 1), .sleep (pauseAfter LinearBackoff 1),
          .launch 2 "job" ["-v"], .childFailed, .backoff LinearBackoff 2,
          .retryMessage 2 (pauseAfter LinearBackoff 2), .sleep (pauseAfter LinearBackoff 2),
          .launch 3 "job" ["-v"], .fatal] :=
  have h := retry_until_start_failure LinearBackoff (Or.inr (Or.inl rfl)) "job" ["-v"] 2 []
  ⟨Or.inr (Or.inl rfl), h.1, h.2.1⟩

/-! ## The pause after each failed attempt -/

/-- C4: for every recognised strategy `s` and every `i ≥ 1`, in a run whose
first `i` children exit with failure, the attempt counter after the `i`-th
failure is `i` and the `i`-th pause slept is the delay `Backoff s i`; the
first `i` pauses are the delays of attempts `1, ..., i`.  With the constant
strategy every finite part of an always-failing run is still running and has
slept 2 s after each failure; with the linear strategy two failures and a
success give the pauses 2 s, 4 s and three launches; with the quadratic
strategy three failures give the pauses 2 s, 8 s, 18 s. -/
theorem pause_is_Backoff_of_attempt (s : BackoffStrategy) (hs : Recognised s) (name : String)
    (args : List String) (i : Nat) (hi : 1 ≤ i) (rest : List ChildOutcome) :
    (∃ d : Duration, Backoff s i = .ok d ∧
      (pauses (enterLoop s name args (List.replicate i .exitFailure ++ rest)).trace)[i - 1]?
        = some d) ∧
    (enterLoop s name args (List.replicate i .exitFailure)).attempts = i ∧
    (pauses (enterLoop s name args (List.replicate i .exitFailure ++ rest)).trace).take i
      = (List.range' 1 i).map (pauseAfter s) ∧
    (∀ n : Nat,
      (enterLoop ConstantBackoff name args (List.replicate n .exitFailure)).status = .running ∧
      pauses (enterLoop ConstantBackoff name args (List.replicate n .exitFailure)).trace
        = List.replicate n (2 * Second)) ∧
    pauses (enterLoop LinearBackoff name args [.exitFailure, .exitFailure, .exitSuccess]).trace
      = [2 * Second, 4 * Second] ∧
    (enterLoop LinearBackoff name args [.exitFailure, .exitFailure, .exitSuccess]).trace.countP
      Event.isLaunch = 3 ∧
    pauses (enterLoop ExponentialBackoff name args
        [.exitFailure, .exitFailure, .exitFailure]).trace
      = [2 * Second, 8 * Second, 18 * Second] := by
  have hpauses : pauses (enterLoop s name args (List.replicate i .exitFailure ++ rest)).trace
      = (List.range' 1 i).map (pauseAfter s) ++
          pauses (retryLoop s (name :: args) (0 + i) rest).trace := by
    rw [enterLoop, retryLoop_failures s hs, pauses, List.filterMap_append, ← pauses, ← pauses,
      pauses_failedRounds]
  refine ⟨⟨pauseAfter s i, Backoff_recognised s hs i, ?_⟩, ?_, ?_, ?_, ?_, ?_, ?_⟩
  · rw [hpauses, List.getElem?_append_left (by simp; omega)]
    rw [List.getElem?_map, List.getElem?_range' 1 1 (by omega : i - 1 < i)]
    have hidx : 1 + (i - 1) = i := by omega
    simp [hidx]
  · have h := retryLoop_failures s hs name args i 0 []
    rw [List.append_nil] at h
    rw [enterLoop, h]
    simp [retryLoop]
  · rw [hpauses, List.take_left']
    simp
  · intro n
    have h := retryLoop_failures ConstantBackoff (Or.inl rfl) name args n 0 []
    rw [List.append_nil] at h
    rw [enterLoop, h]
    refine ⟨by simp [retryLoop], ?_⟩
    simp only [retryLoop, List.append_nil]
    rw [pauses_failedRounds]
    have hc : pauseAfter ConstantBackoff = fun _ => 2 * Second := by
      funext m
      simp [pauseAfter, Backoff_constant_value]
    rw [hc]
    simp [List.eq_replicate_iff]
  · simp [enterLoop, retryLoop, pauses, Backoff, wrap64, LinearBackoff, ConstantBackoff, Second]
  · simp [enterLoop, retryLoop, Backoff, wrap64, LinearBackoff, ConstantBackoff, Second,
      Event.isLaunch]
  · simp [enterLoop, retryLoop, pauses, Backoff, wrap64, LinearBackoff, ConstantBackoff,
      ExponentialBackoff, Second]

/-- Witness for C4 with the quadratic strategy and `i = 3`: the third pause is
the delay of attempt 3. -/
theorem pause_is_Backoff_of_attempt_witness :
    Recognised ExponentialBackoff ∧ 1 ≤ 3 ∧
    ∃ d : Duration, Backoff ExponentialBackoff (3 : Nat) = .ok d ∧
      (pauses (enterLoop ExponentialBackoff "job" []
        (List.replicate 3 .exitFailure ++ [.exitSuccess])).trace)[3 - 1]? = some d :=
  ⟨Or.inr (Or.inr rfl), by decide,
    (pause_is_Backoff_of_attempt ExponentialBackoff (Or.inr (Or.inr rfl)) "job" [] 3
      (by decide) [.exitSuccess]).1⟩

/-! ## The example schedule -/

/-- The schedule the statements below compare `ShowExample` with: row `i`
holds `i`, the delay slept before attempt `i` (none before the first) and the
sum of the delays of the attempts before `i`. -/
theorem rows_ShowExample (s : BackoffStrategy) (hs : Recognised s) :
    rows (ShowExample s).1 =
      (List.range' 1 20).map fun i =>
        { index := (i : Int)
          pause := if i = 1 then 0 else pauseAfter s (i - 1)
          pauseTotal := ((List.range' 1 (i - 1)).map (pauseAfter s)).sum } := by
  rcases hs with hs | hs | hs <;> subst hs <;> rfl

/-- C9, as stated, fails: the first row of the constant schedule carries the
delay 0, not the delay 2 s of attempt 1, and the second row of the linear
schedule carries 2 s, the delay of attempt 1, not the 4 s of attempt 2. -/
theorem ShowExample_row_delay_fails :
    (rows (ShowExample ConstantBackoff).1)[0]?
      = some { index := 1, pause := 0, pauseTotal := 0 } ∧
    Backoff ConstantBackoff 1 = .ok 2000000000 ∧
    (rows (ShowExample LinearBackoff).1)[1]?
      = some { index := 2, pause := 2000000000, pauseTotal := 2000000000 } ∧
    Backoff LinearBackoff 1 = .ok 2000000000 ∧
    Backoff LinearBackoff 2 = .ok 4000000000 := by
  refine ⟨rfl, rfl, rfl, rfl, rfl⟩

/-- C9, amended: for every recognised strategy `s`, `ShowExample s` prints
exactly 20 rows and returns; for every `i` in `1..20` row `i` carries the index
`i`, a cumulative delay equal to the sum of the delays `Backoff s j` for
`1 ≤ j < i`, and a per-row delay that is 0 for `i = 1` and the delay
`Backoff s (i - 1)` of the preceding attempt for `i ≥ 2`. -/
theorem ShowExample_rows (s : BackoffStrategy) (hs : Recognised s) (i : Nat)
    (h1 : 1 ≤ i) (h20 : i ≤ 20) :
    (ShowExample s).2 = none ∧
    (rows (ShowExample s).1).length = 20 ∧
    (ShowExample s).1.length = 22 ∧
    (∀ j : Nat, Backoff s j = .ok (pauseAfter s j)) ∧
    (rows (ShowExample s).1)[i - 1]? =
      some { index := (i : Int)
             pause := if i = 1 then 0 else pauseAfter s (i - 1)
             pauseTotal := ((List.range' 1 (i - 1)).map (pauseAfter s)).sum } := by
  refine ⟨?_, ?_, ?_, Backoff_recognised s hs, ?_⟩
  · rcases hs with hs | hs | hs <;> subst hs <;> rfl
  · rw [rows_ShowExample s hs]
    simp
  · rcases hs with hs | hs | hs <;> subst hs <;> rfl
  · rw [rows_ShowExample s hs, List.getElem?_map,
      List.getElem?_range' 1 1 (by omega : i - 1 < 20)]
    have hidx : 1 + 1 * (i - 1) = i := by omega
    simp only [Option.map_some', hidx]

/-- Witness for C9 with the quadratic strategy and row 4: delay 18 s (that of
attempt 3), cumulative delay 2 s + 8 s + 18 s. -/
theorem ShowExample_rows_witness :
    Recognised ExponentialBackoff ∧ 1 ≤ 4 ∧ 4 ≤ 20 ∧
    (rows (ShowExample ExponentialBackoff).1)[4 - 1]? =
      some { index := 4, pause := 18 * Second, pauseTotal := 28 * Second } :=
  ⟨Or.inr (Or.inr rfl), by decide, by decide,
    (ShowExample_rows ExponentialBackoff (Or.inr (Or.inr rfl)) 4 (by decide)
      (by decide)).2.2.2.2⟩

/-! ## Reading the command line -/

theorem selectStrategy_other (first : String) (hc : first ≠ "constant") (hl : first ≠ "linear")
    (he : first ≠ "exponential") : selectStrategy first = (ConstantBackoff, false) := by
  simp [selectStrategy, hc, hl, he]

theorem selectStrategy_recognised (first : String) : Recognised (selectStrategy first).1 := by
  unfold selectStrategy
  split_ifs
  · exact Or.inl rfl
  · exact Or.inr (Or.inl rfl)
  · exact Or.inr (Or.inr rfl)
  · exact Or.inl rfl

theorem main_with_command (prog first : String) (more : List String)
    (outcomes : List ChildOutcome)
    (h : ¬ ((selectStrategy first).2 = true ∧ more = [])) :
    main (prog :: first :: more) outcomes =
      retryLoop (selectStrategy first).1
        (resolveCommand (selectStrategy first).2 (prog :: first :: more)) 0 outcomes := by
  have hcond : ((selectStrategy first).2 && (prog :: first :: more).length == 2) = false := by
    cases hsel : (selectStrategy first).2 with
    | false => rfl
    | true =>
      cases more with
      | nil => exact absurd ⟨hsel, rfl⟩ h
      | cons m ms => simp
  simp only [main, hcond]
  rfl

/-- C5: for every non-empty argument list `first :: more` after the program
name: when `first` is exactly "constant", "linear" or "exponential", `main`
selects the corresponding strategy and the command is `more`, which the retry
loop runs whenever it is non-empty; for any other `first` (a different letter
case or a shortened keyword included) `main` selects the constant strategy and
runs the whole of `first :: more`, with `first` as the program name.  The
selected strategy is always one of the three recognised values. -/
theorem main_selects_strategy (prog first : String) (more : List String)
    (outcomes : List ChildOutcome) :
    (first = "constant" →
      selectStrategy first = (ConstantBackoff, true) ∧
      resolveCommand true (prog :: first :: more) = more ∧
      (more ≠ [] → main (prog :: first :: more) outcomes
        = retryLoop ConstantBackoff more 0 outcomes)) ∧
    (first = "linear" →
      selectStrategy first = (LinearBackoff, true) ∧
      resolveCommand true (prog :: first :: more) = more ∧
      (more ≠ [] → main (prog :: first :: more) outcomes
        = retryLoop LinearBackoff more 0 outcomes)) ∧
    (first = "exponential" →
      selectStrategy first = (ExponentialBackoff, true) ∧
      resolveCommand true (prog :: first :: more) = more ∧
      (more ≠ [] → main (prog :: first :: more) outcomes
        = retryLoop ExponentialBackoff more 0 outcomes)) ∧
    (first ≠ "constant" → first ≠ "linear" → first ≠ "exponential" →
      selectStrategy first = (ConstantBackoff, false) ∧
      resolveCommand false (prog :: first :: more) = first :: more ∧
      main (prog :: first :: more) outcomes
        = enterLoop ConstantBackoff first more outcomes) ∧
    Recognised (selectStrategy first).1 ∧
    selectStrategy "Linear" = (ConstantBackoff, false) ∧
    selectStrategy "CONSTANT" = (ConstantBackoff, false) ∧
    selectStrategy "exp" = (ConstantBackoff, false) ∧
    selectStrategy "linea" = (ConstantBackoff, false) := by
  refine ⟨?_, ?_, ?_, ?_, selectStrategy_recognised first, ?_, ?_, ?_, ?_⟩
  · intro hf
    subst hf
    refine ⟨rfl, rfl, fun hm => ?_⟩
    rw [main_with_command _ _ _ _ (fun hc => hm hc.2)]
    rfl
  · intro hf
    subst hf
    refine ⟨rfl, rfl, fun hm => ?_⟩
    rw [main_with_command _ _ _ _ (fun hc => hm hc.2)]
    rfl
  · intro hf
    subst hf
    refine ⟨rfl, rfl, fun hm => ?_⟩
    rw [main_with_command _ _ _ _ (fun hc => hm hc.2)]
    rfl
  · intro hc hl he
    have hsel := selectStrategy_other first hc hl he
    refine ⟨hsel, rfl, ?_⟩
    rw [main_with_command _ _ _ _ (by rw [hsel]; simp), hsel]
    rfl
  · exact selectStrategy_other _ (by decide) (by decide) (by decide)
  · exact selectStrategy_other _ (by decide) (by decide) (by decide)
  · exact selectStrategy_other _ (by decide) (by decide) (by decide)
  · exact selectStrategy_other _ (by decide) (by decide) (by decide)

/-! ## Exits before the first launch -/

theorem retryLoop_launches_first (s : BackoffStrategy) (name : String) (args : List String)
    (a : Nat) (outcomes : List ChildOutcome) :
    (retryLoop s (name :: args) a outcomes).status = .running ∨
      (retryLoop s (name :: args) a outcomes).trace.countP Event.isLaunch ≠ 0 := by
  cases outcomes with
  | nil => exact Or.inl rfl
  | cons o later =>
    right
    cases o with
    | startError => simp [retryLoop, Event.isLaunch]
    | exitSuccess => simp [retryLoop, Event.isLaunch]
    | exitFailure =>
      rw [retryLoop]
      cases hb : Backoff s ((a + 1 : Nat) : Int) with
      | error msg => simp [Event.isLaunch]
      | ok pause => simp [Event.isLaunch]

theorem retryLoop_never_panics (s : BackoffStrategy) (hs : Recognised s) (name : String)
    (args : List String) (outcomes : List ChildOutcome) :
    ∀ (a : Nat) (msg : String),
      (retryLoop s (name :: args) a outcomes).status ≠ .panicked msg := by
  induction outcomes with
  | nil => intro a msg; simp [retryLoop]
  | cons o later ih =>
    intro a msg
    cases o with
    | startError => simp [retryLoop]
    | exitSuccess => simp [retryLoop]
    | exitFailure =>
      rw [retryLoop_failure s hs]
      exact ih (a + 1) msg

theorem countP_isLaunch_ShowExample (s : BackoffStrategy) (hs : Recognised s) :
    (ShowExample s).1.countP Event.isLaunch = 0 ∧ (ShowExample s).2 = none := by
  rcases hs with hs | hs | hs <;> subst hs <;> exact ⟨rfl, rfl⟩

/-- C6: `main` exits with code 1 without any launch exactly when nothing
follows the program name (it prints the usage) or the only argument is
"constant", "linear" or "exponential" (it prints the example schedule of that
strategy); in every other case `main` is the retry loop, entered with a
recognised strategy and a command `name :: args` that is not empty. -/
theorem main_exits_without_launch_iff (osArgs : List String) (outcomes : List ChildOutcome) :
    (((main osArgs outcomes).status = .exited 1 ∧
        (main osArgs outcomes).trace.countP Event.isLaunch = 0) ↔
      (osArgs.drop 1 = [] ∨ osArgs.drop 1 = ["constant"] ∨ osArgs.drop 1 = ["linear"] ∨
        osArgs.drop 1 = ["exponential"])) ∧
    (osArgs.drop 1 = [] →
      main osArgs outcomes = { attempts := 0, trace := [.usage], status := .exited 1 }) ∧
    (osArgs.drop 1 = ["constant"] → main osArgs outcomes =
      { attempts := 0, trace := (ShowExample ConstantBackoff).1, status := .exited 1 }) ∧
    (osArgs.drop 1 = ["linear"] → main osArgs outcomes =
      { attempts := 0, trace := (ShowExample LinearBackoff).1, status := .exited 1 }) ∧
    (osArgs.drop 1 = ["exponential"] → main osArgs outcomes =
      { attempts := 0, trace := (ShowExample ExponentialBackoff).1, status := .exited 1 }) ∧
    (¬ (osArgs.drop 1 = [] ∨ osArgs.drop 1 = ["constant"] ∨ osArgs.drop 1 = ["linear"] ∨
        osArgs.drop 1 = ["exponential"]) →
      ∃ (s : BackoffStrategy) (name : String) (args : List String),
        Recognised s ∧ (selectStrategy (osArgs.getD 1 "")).1 = s ∧
        resolveCommand (selectStrategy (osArgs.getD 1 "")).2 osArgs = name :: args ∧
        main osArgs outcomes = enterLoop s name args outcomes ∧
        ∀ msg : String, (main osArgs outcomes).status ≠ .panicked msg) := by
  match osArgs with
  | [] => simp [main, Event.isLaunch]
  | [_] => simp [main, Event.isLaunch]
  | [prog, first] =>
    by_cases hc : first = "constant"
    · subst hc
      have hmain : main [prog, "constant"] outcomes =
          { attempts := 0, trace := (ShowExample ConstantBackoff).1, status := .exited 1 } := rfl
      simp [hmain, (countP_isLaunch_ShowExample ConstantBackoff (Or.inl rfl)).1]
    · by_cases hl : first = "linear"
      · subst hl
        have hmain : main [prog, "linear"] outcomes =
            { attempts := 0, trace := (ShowExample LinearBackoff).1, status := .exited 1 } := rfl
        simp [hmain, (countP_isLaunch_ShowExample LinearBackoff (Or.inr (Or.inl rfl))).1]
      · by_cases he : first = "exponential"
        · subst he
          have hmain : main [prog, "exponential"] outcomes =
              { attempts := 0, trace := (ShowExample ExponentialBackoff).1
                status := .exited 1 } := rfl
          simp [hmain,
            (countP_isLaunch_ShowExample ExponentialBackoff (Or.inr (Or.inr rfl))).1]
        · have hsel := selectStrategy_other first hc hl he
          have hmain : main [prog, first] outcomes
              = enterLoop ConstantBackoff first [] outcomes := by
            rw [main_with_command _ _ _ _ (by rw [hsel]; simp), hsel]
            rfl
          have hfirst := retryLoop_launches_first ConstantBackoff first [] 0 outcomes
          refine ⟨?_, ?_, ?_, ?_, ?_, ?_⟩
          · constructor
            · rintro ⟨hst, hcount⟩
              rw [hmain, enterLoop] at hst hcount
              rcases hfirst with hrun | hlaunch
              · rw [hrun] at hst
                exact absurd hst (by decide)
              · exact absurd hcount hlaunch
            · intro hkw
              simp [hc, hl, he] at hkw
          · intro h
            simp at h
          · intro h
            simp [hc] at h
          · intro h
            simp [hl] at h
          · intro h
            simp [he] at h
          · intro _
            refine ⟨ConstantBackoff, first, [], Or.inl rfl, ?_, ?_, hmain, ?_⟩
            · show (selectStrategy first).1 = ConstantBackoff
              rw [hsel]
            · show resolveCommand (selectStrategy first).2 [prog, first] = [first]
              rw [hsel]
              rfl
            · rw [hmain]
              exact retryLoop_never_panics ConstantBackoff (Or.inl rfl) first [] outcomes 0
  | prog :: first :: m :: more =>
    have hne : ¬ ((selectStrategy first).2 = true ∧ m :: more = []) := by simp
    have hmain := main_with_command prog first (m :: more) outcomes hne
    have hrun : ∃ (s : BackoffStrategy) (name : String) (args : List String),
        Recognised s ∧ (selectStrategy first).1 = s ∧
        resolveCommand (selectStrategy first).2 (prog :: first :: m :: more) = name :: args ∧
        main (prog :: first :: m :: more) outcomes = enterLoop s name args outcomes := by
      rw [hmain]
      by_cases hc : first = "constant"
      · subst hc
        exact ⟨ConstantBackoff, m, more, Or.inl rfl, rfl, rfl, rfl⟩
      · by_cases hl : first = "linear"
        · subst hl
          exact ⟨LinearBackoff, m, more, Or.inr (Or.inl rfl), rfl, rfl, rfl⟩
        · by_cases he : first = "exponential"
          · subst he
            exact ⟨ExponentialBackoff, m, more, Or.inr (Or.inr rfl), rfl, rfl, rfl⟩
          · rw [selectStrategy_other first hc hl he]
            exact ⟨ConstantBackoff, first, m :: more, Or.inl rfl, rfl, rfl, rfl⟩
    have hfull : ∃ (s : BackoffStrategy) (name : String) (args : List String),
        Recognised s ∧ (selectStrategy ((prog :: first :: m :: more).getD 1 "")).1 = s ∧
        resolveCommand (selectStrategy ((prog :: first :: m :: more).getD 1 "")).2
          (prog :: first :: m :: more) = name :: args ∧
        main (prog :: first :: m :: more) outcomes = enterLoop s name args outcomes ∧
        ∀ msg : String, (main (prog :: first :: m :: more) outcomes).status ≠ .panicked msg := by
      obtain ⟨s, name, args, hs, hsel, hcmd, heq⟩ := hrun
      refine ⟨s, name, args, hs, hsel, hcmd, heq, ?_⟩
      rw [heq]
      exact retryLoop_never_panics s hs name args outcomes 0
    refine ⟨?_, ?_, ?_, ?_, ?_, fun _ => hfull⟩
    · constructor
      · rintro ⟨hst, hcount⟩
        obtain ⟨s, name, args, -, -, -, heq⟩ := hrun
        rw [heq, enterLoop] at hst hcount
        rcases retryLoop_launches_first s name args 0 outcomes with hrunning | hlaunch
        · rw [hrunning] at hst
          exact absurd hst (by decide)
        · exact absurd hcount hlaunch
      · intro hkw
        simp at hkw
    · intro h
      simp at h
    · intro h
      simp at h
    · intro h
      simp at h
    · intro h
      simp at h

end Try
